import Mathlib

/-!
Verification of the entities-service core (identity grammar, MockBackend store,
and the entities router) against its specification.

The development shallowly embeds:
  * `URI_REGEX` from `entities_service/models/__init__.py` as an executable
    matcher over `List Char` (`parseUri` / `matchesUri`);
  * the `MockBackend` store of `tests/service/routers/conftest.py`
    (parallel lists `__test_data` / `__test_data_uris`) as `Backend`;
  * the router handlers of `entities_service/service/routers/entities.py`
    (`get_entities`, `create_entities`, `update_entities`, `patch_entities`,
    `delete_entities`, `update_entity`, `patch_entity`, `delete_entity`)
    as state-passing functions returning `Except RouterErr _ × Backend`.

HTTP transport, auth (`verify_token`) and logging are out of scope; error
detail strings are not modelled, only the error class / status category.
-/

namespace EntitiesService

/-! ## URI grammar

`URI_REGEX = ^(?P<namespace>https?://.+)/(?P<version>\d(?:\.\d+){0,2})/(?P<name>[^/#?]+)$`

Since neither the version group (digits and dots only) nor the name group
(no `/`) can contain a slash, an anchored match is forced to split the string
at its last two `/` characters: the name is the segment after the last `/`,
the version the segment between the last two, the (greedy) namespace all the
rest.  `parseUri` implements exactly that split and then checks each segment
against its sub-grammar.  `\d` is modelled as an ASCII digit; `.` in the
namespace part excludes a newline, as in Python `re` without DOTALL. -/

/-- Split a character list at the LAST occurrence of `sep`:
`splitLast sep l = some (a, b)` iff `l = a ++ sep :: b` with `sep ∉ b`. -/
def splitLast (sep : Char) : List Char → Option (List Char × List Char)
  | [] => none
  | c :: cs =>
    match splitLast sep cs with
    | some (a, b) => some (c :: a, b)
    | none => if c = sep then some ([], cs) else none

/-- The tail of the version group: up to `k` repetitions of `(\.\d+)`. -/
def versionTailOk : Nat → List Char → Bool
  | _, [] => true
  | 0, _ :: _ => false
  | Nat.succ k, c :: rest =>
    c == '.' && !(rest.takeWhile Char.isDigit).isEmpty
      && versionTailOk k (rest.dropWhile Char.isDigit)

/-- The version group `\d(?:\.\d+){0,2}`: one digit, then 0–2 dot-digit groups. -/
def versionOk : List Char → Bool
  | [] => false
  | c :: rest => c.isDigit && versionTailOk 2 rest

/-- The name group `[^/#?]+`: nonempty, excluding `/`, `#`, `?`. -/
def nameOk (l : List Char) : Bool :=
  !l.isEmpty && l.all (fun c => c != '/' && c != '#' && c != '?')

/-- The namespace group `https?://.+`: an `http://` or `https://` scheme
followed by at least one character, none of which is a newline. -/
def nsOk (l : List Char) : Bool :=
  (List.isPrefixOf "http://".toList l && !(l.drop 7).isEmpty
      && (l.drop 7).all (fun c => c != '\n'))
    || (List.isPrefixOf "https://".toList l && !(l.drop 8).isEmpty
      && (l.drop 8).all (fun c => c != '\n'))

/-- A parsed entity identity: namespace, version and name components. -/
structure Identity where
  nspace : String
  version : String
  name : String
deriving DecidableEq, Repr

/-- Canonical string form `{namespace}/{version}/{name}` of an identity. -/
def Identity.toUri (i : Identity) : String :=
  i.nspace ++ "/" ++ i.version ++ "/" ++ i.name

/-- Parse a candidate identity string against `URI_REGEX` (see the module
comment for why the last-two-slashes split is the unique possible match). -/
def parseUri (s : String) : Option Identity :=
  match splitLast '/' s.toList with
  | none => none
  | some (rest, nm) =>
    match splitLast '/' rest with
    | none => none
    | some (ns, ver) =>
      if nsOk ns && versionOk ver && nameOk nm then
        some ⟨ns.asString, ver.asString, nm.asString⟩
      else
        none

/-- `URI_REGEX.match(s) is not None`. -/
def matchesUri (s : String) : Bool :=
  (parseUri s).isSome

/-! ## Entity documents

An entity document is a mapping carrying identity fields (`uri`, or the triad
`namespace` / `version` / `name`), plus `properties` and `dimensions`.  For the
search semantics only the runtime shape of the latter two fields matters: a
mapping (only its keys are inspected), a sequence of `{name, ...}` objects
(only each element's optional `name` is inspected), or an invalid shape. -/

/-- The runtime shape of a document's `properties` or `dimensions` field. -/
inductive FieldShape where
  /-- SOFT7 mapping; `keys` are the mapping's keys. -/
  | dictShape (keys : List String)
  /-- SOFT5 sequence of objects; each element contributes its `name` field
  (`none` when the element has no `name`, i.e. Python `prop.get("name")`). -/
  | listShape (names : List (Option String))
  /-- Neither a mapping nor a sequence. -/
  | invalidShape
deriving DecidableEq, Repr

/-- An entity document.  `uri?`, `nspace?`, `version?`, `name?` model presence
or absence of the corresponding dictionary keys (`nspace` for Python
`namespace`, a Lean keyword). -/
structure Doc where
  uri? : Option String
  nspace? : Option String
  version? : Option String
  name? : Option String
  properties : FieldShape
  dimensions : FieldShape
deriving DecidableEq, Repr

/-- `str.rstrip("/")`: remove every trailing `/`. -/
def rstripSlash (s : String) : String :=
  ((s.toList.reverse.dropWhile (· = '/')).reverse).asString

/-- Python `str(x)` of an optional field, `str(None) = "None"`. -/
def optStr (o : Option String) : String :=
  o.getD "None"

/-- Modelled from the spec: `get_uri` (`entities_service.service.utils`, not
among the sources) derives the canonical identity string of a document that
carries either a pre-composed `uri` field or the triad
`{namespace, version, name}`, as `{namespace}/{version}/{name}` with any
trailing `/` stripped from the namespace before composition. -/
def getUri (d : Doc) : String :=
  match d.uri? with
  | some u => u
  | none => rstripSlash (optStr d.nspace?) ++ "/" ++ optStr d.version? ++ "/" ++ optStr d.name?

/-! ## The store (`MockBackend` of `conftest.py`)

The backend keeps two parallel lists, `__test_data` (documents) and
`__test_data_uris` (their identity strings); `create` extends both, `delete`
removes matching index pairs, `update` replaces a document in `data` only.
Index lookups `data[uris.index(id)]` are modelled by simultaneous recursion
over the two lists (`lookupByUri` / `setByUri` / `removeByUri`), which agrees
with the Python expression whenever the lists have equal length (they do in
every state the service can reach; a shorter `data` would raise IndexError
in Python and yields an absent result here). -/

/-- The single backend error class (`MockBackendError`); its message is not
modelled.  It is a member of `write_access_exception`, so routers that guard
store calls catch it. -/
inductive BackendErr where
  | mockError
deriving DecidableEq, Repr

/-- `self._test_data[self.__test_data_uris.index(id)]` on parallel lists. -/
def lookupByUri : List String → List Doc → String → Option Doc
  | u :: us, d :: ds, id => if u = id then some d else lookupByUri us ds id
  | _, _, _ => none

/-- `self.__test_data[self.__test_data_uris.index(id)] = e` on parallel lists. -/
def setByUri : List String → List Doc → String → Doc → List Doc
  | u :: us, d :: ds, id, e => if u = id then e :: ds else d :: setByUri us ds id e
  | _, ds, _, _ => ds

/-- `data.pop(uris.index(id))` together with `uris.remove(id)`. -/
def removeByUri : List String → List Doc → String → List String × List Doc
  | u :: us, d :: ds, id =>
    if u = id then (us, ds)
    else
      let p := removeByUri us ds id
      (u :: p.1, d :: p.2)
  | us, ds, _ => (us, ds)

/-- The `MockBackend` state: `__test_data` and `__test_data_uris`. -/
structure Backend where
  data : List Doc
  uris : List String
deriving DecidableEq, Repr

/-- Modelled from the spec: the Store `contains` capability (`id in backend`;
the `in` operator comes from the backend base class, which is not among the
sources) — membership by exact canonical-string equality. -/
def Backend.contains (b : Backend) (id : String) : Prop :=
  id ∈ b.uris

instance (b : Backend) (id : String) : Decidable (b.contains id) :=
  inferInstanceAs (Decidable (id ∈ b.uris))

/-- The value returned by `Store.create`: Python `None`, a single document, or
a list of documents. -/
inductive CreatedResult where
  | nothing
  | one (d : Doc)
  | many (ds : List Doc)
deriving DecidableEq, Repr

/-- Python `isinstance(created, list)`. -/
def CreatedResult.isList : CreatedResult → Bool
  | .many _ => true
  | _ => false

/-- `MockBackend.create`: `None` for an empty input (no state change);
otherwise extend both lists and return the single document or the list,
mirroring the input arity.  (`_prepare_entity` is modelled as the identity on
documents.) -/
def Backend.create (b : Backend) (es : List Doc) : CreatedResult × Backend :=
  match es with
  | [] => (.nothing, b)
  | [e] => (.one e, ⟨b.data ++ [e], b.uris ++ [getUri e]⟩)
  | es => (.many es, ⟨b.data ++ es, b.uris ++ es.map getUri⟩)

/-- `MockBackend.update`: raise `MockBackendError` on an identity not matching
`URI_REGEX`; replace the document at the identity's index when present;
silently do nothing otherwise.  The `uris` list is left untouched, as in the
source. -/
def Backend.update (b : Backend) (id : String) (e : Doc) : Except BackendErr Backend :=
  if ¬ matchesUri id then .error .mockError
  else if id ∈ b.uris then .ok ⟨setByUri b.uris b.data id e, b.uris⟩
  else .ok b

/-- One step of the `MockBackend.delete` loop: remove the identity's
index pair when present, otherwise a silent no-op. -/
def Backend.removeId (b : Backend) (id : String) : Backend :=
  if id ∈ b.uris then
    let p := removeByUri b.uris b.data id
    ⟨p.2, p.1⟩
  else b

/-- `MockBackend.delete`: raise `MockBackendError` if any identity fails
`URI_REGEX`; otherwise remove each identity in turn (missing ones are
silently skipped). -/
def Backend.delete (b : Backend) (ids : List String) : Except BackendErr Backend :=
  if ids.any (fun id => ¬ matchesUri id) then .error .mockError
  else .ok (ids.foldl Backend.removeId b)

/-- `MockBackend.read`. -/
def Backend.read (b : Backend) (id : String) : Option Doc :=
  if id ∈ b.uris then lookupByUri b.uris b.data id else none

/-! ## Search (`MockBackend.search`) -/

/-- Python truthiness of an optional list (`if by_properties:`): `None` and
`[]` are both falsy. -/
def truthy (o : Option (List String)) : Bool :=
  match o with
  | none => false
  | some l => !l.isEmpty

/-- Whether a `properties`/`dimensions` field matches any requested name:
for a mapping, some requested name is a key; for a sequence, some requested
name equals an element's `name`; an invalid shape raises. -/
def FieldShape.matchNames (shape : FieldShape) (requested : List String) :
    Except BackendErr Bool :=
  match shape with
  | .dictShape keys => .ok (requested.any (fun p => keys.contains p))
  | .listShape names => .ok (requested.any (fun p => names.contains (some p)))
  | .invalidShape => .error .mockError

/-- One filter pass of `MockBackend.search`: walk the store's documents in
order, appending those whose field (selected by `fieldOf`) matches. -/
def collectMatches (fieldOf : Doc → FieldShape) (requested : List String) :
    List Doc → Except BackendErr (List Doc)
  | [] => .ok []
  | d :: ds =>
    match (fieldOf d).matchNames requested with
    | .error e => .error e
    | .ok m =>
      match collectMatches fieldOf requested ds with
      | .error e => .error e
      | .ok rest => .ok (if m then d :: rest else rest)

/-- `MockBackend.search`: reject raw queries; then append, in order, the
documents matching the property filter, the dimension filter, and the direct
identity lookups — an inclusive, non-deduplicating union. -/
def Backend.search (b : Backend) (rawQuery : Option Unit)
    (byProperties byDimensions byIdentity : Option (List String)) :
    Except BackendErr (List Doc) :=
  if rawQuery.isSome then .error .mockError
  else
    match
      (if truthy byProperties then
        collectMatches Doc.properties (byProperties.getD []) b.data
      else .ok []) with
    | .error e => .error e
    | .ok propRes =>
      match
        (if truthy byDimensions then
          collectMatches Doc.dimensions (byDimensions.getD []) b.data
        else .ok []) with
      | .error e => .error e
      | .ok dimRes =>
        let idRes :=
          if truthy byIdentity then
            (byIdentity.getD []).filterMap (lookupByUri b.uris b.data)
          else []
        .ok (propRes ++ dimRes ++ idRes)

/-- The matching criterion of one filter pass of `search`, as a total
predicate on documents (an invalid shape raises in `search` instead of
matching). -/
def critShape (shape : FieldShape) (requested : List String) : Bool :=
  match shape with
  | .dictShape keys => requested.any (fun p => keys.contains p)
  | .listShape names => requested.any (fun p => names.contains (some p))
  | .invalidShape => false

/-! ## Router handlers (`entities.py`)

Each handler is a state-passing function; an `Except.error` value is a raised
`HTTPException` (or an escaping Python exception), the returned `Backend` the
store state at that point — errors raised before any store mutation leave the
state component equal to the input state. -/

/-- The error classes a handler can surface. -/
inductive RouterErr where
  /-- HTTP 400 Bad Request (client error). -/
  | badRequest
  /-- HTTP 404 Not Found (lookup failure). -/
  | notFound
  /-- HTTP 502 Bad Gateway: single aggregated write failure for a batch. -/
  | badGateway
  /-- Python `UnboundLocalError` escaping the handler (HTTP 500). -/
  | unboundLocal
  /-- An uncaught backend error escaping the handler (HTTP 500). -/
  | backendError
deriving DecidableEq, Repr

/-- `get_entities` (GET `/entities/`): search, return the results when
nonempty, otherwise raise 404.  Backend errors from `search` are not caught
by the handler. -/
def getEntities (b : Backend)
    (identities properties dimensions : Option (List String)) :
    Except RouterErr (List Doc) :=
  match b.search none properties dimensions identities with
  | .error _ => .error .backendError
  | .ok entities => if entities.isEmpty then .error .notFound else .ok entities

/-- `create_entities` (POST `/entities/`).  `storeCreate` abstracts the
`Store.create` call of the store contract (§4.2): `.error` models a raised
`write_access_exception`, `.ok` the returned value.  `.ok none` is the 204
No Content response for an empty batch; a single non-list input is wrapped
into a one-element batch by the handler, so the input is a list here. -/
def createEntities (storeCreate : List Doc → Except BackendErr CreatedResult)
    (input : List Doc) : Except RouterErr (Option CreatedResult) :=
  match input with
  | [] => .ok none
  | es =>
    match storeCreate es with
    | .error _ => .error .badGateway
    | .ok created =>
      if created = .nothing
          || (es.length == 1 && created.isList)
          || (decide (1 < es.length) && !created.isList) then
        .error .badGateway
      else
        .ok (some created)

/-- The response of `update_entities` (PUT `/entities/`). -/
inductive PutResp where
  /-- `return None` for an empty input list (the 201 default status stands). -/
  | emptyInput
  /-- 201 with the created (not replaced) entities. -/
  | created (r : CreatedResult)
  /-- 204 No Content (nothing was created). -/
  | noContent
deriving DecidableEq, Repr

/-- The update loop of `update_entities`: skip members of `new_entities`,
update the rest when still present; a write failure stops the loop, keeping
already-applied updates. -/
def putUpdateLoop (newEntities : List Doc) (b : Backend) :
    List Doc → Option BackendErr × Backend
  | [] => (none, b)
  | e :: es =>
    if e ∈ newEntities then putUpdateLoop newEntities b es
    else if b.contains (getUri e) then
      match b.update (getUri e) e with
      | .error err => (some err, b)
      | .ok b' => putUpdateLoop newEntities b' es
    else putUpdateLoop newEntities b es

/-- `update_entities` (PUT `/entities/`, replace-or-create).  The source binds
`created_entities` only inside `if new_entities:`; when no entity is new the
subsequent arity check reads the name unbound, which raises
`UnboundLocalError` — modelled by the `.unboundLocal` error.  (`MockBackend.create`
does not raise, so the create call's `except` arm is unreachable here.) -/
def updateEntities (b : Backend) (input : List Doc) :
    Except RouterErr PutResp × Backend :=
  match input with
  | [] => (.ok .emptyInput, b)
  | es =>
    let newEntities := es.filter (fun e => ¬ b.contains (getUri e))
    let step : Option CreatedResult × Backend :=
      if newEntities.isEmpty then (none, b)
      else
        let p := b.create newEntities
        (some p.1, p.2)
    match step with
    | (none, b1) => (.error .unboundLocal, b1)
    | (some created, b1) =>
      if created = .nothing
          || (newEntities.length == 1 && created.isList)
          || (decide (1 < newEntities.length) && !created.isList) then
        (.error .badGateway, b1)
      else
        match putUpdateLoop newEntities b1 es with
        | (some _, b2) => (.error .badGateway, b2)
        | (none, b2) =>
          if !newEntities.isEmpty then (.ok (.created created), b2)
          else (.ok .noContent, b2)

/-- The update loop of `patch_entities`: update every entity in order; a
write failure stops the loop (already-applied updates are kept). -/
def patchUpdateLoop (b : Backend) : List Doc → Option BackendErr × Backend
  | [] => (none, b)
  | e :: es =>
    match b.update (getUri e) e with
    | .error err => (some err, b)
    | .ok b' => patchUpdateLoop b' es

/-- `patch_entities` (PATCH `/entities/`): an empty batch is a no-op; then a
pre-flight existence check over every target identity — any missing identity
raises the batch's aggregated write-failure exception (502) before any
`Store.update` call; otherwise each entity is updated in turn. -/
def patchEntities (b : Backend) (input : List Doc) :
    Except RouterErr Unit × Backend :=
  match input with
  | [] => (.ok (), b)
  | es =>
    let nonExisting := es.filter (fun e => ¬ b.contains (getUri e))
    if !nonExisting.isEmpty then (.error .badGateway, b)
    else
      match patchUpdateLoop b es with
      | (some _, b') => (.error .badGateway, b')
      | (none, b') => (.ok (), b')

/-- The request body of DELETE `/entities/`: `None`, a single identity
string, or a list of identities. -/
inductive BodyIds where
  | noBody
  | single (id : String)
  | listOf (ids : List String)
deriving DecidableEq, Repr

/-- The identities contributed by the request body. -/
def bodyList : BodyIds → List String
  | .noBody => []
  | .single id => [id]
  | .listOf l => l

/-- All supplied identities, body first, then query, duplicates included. -/
def rawIds (body : BodyIds) (query : Option (List String)) : List String :=
  bodyList body ++ query.getD []

/-- `if x ∈ l then l else l ++ [x]`: one `set.add` step, keeping first
insertion order as the canonical representation of the Python set. -/
def addUnique (l : List String) (x : String) : List String :=
  if x ∈ l then l else l ++ [x]

/-- The Python set of supplied identities, as its insertion-ordered,
duplicate-free list of elements. -/
def collectIds (body : BodyIds) (query : Option (List String)) : List String :=
  (rawIds body query).foldl addUnique []

/-- Python `sorted` on strings (lexicographic by code point). -/
def sortStr (l : List String) : List String :=
  l.insertionSort (· ≤ ·)

/-- `delete_entities` (DELETE `/entities/`): collect the supplied identities
into a set; an empty set raises 400 (before the store is contacted); a
backend failure raises the aggregated 502; on success return the identities
sorted. -/
def deleteEntities (b : Backend) (body : BodyIds)
    (query : Option (List String)) : Except RouterErr (List String) × Backend :=
  let ids := collectIds body query
  if ids.isEmpty then (.error .badRequest, b)
  else
    match b.delete ids with
    | .error _ => (.error .badGateway, b)
    | .ok b' => (.ok (sortStr ids), b')

/-- `update_entity` (PUT `/entities/{identity}`): raise 400 when the target
identity differs from the document-derived identity (before any store
interaction); create when absent (returning the input entity, 201); update
when present (204, `.ok none`). -/
def updateEntity (b : Backend) (identity : String) (entity : Doc) :
    Except RouterErr (Option Doc) × Backend :=
  if identity ≠ getUri entity then (.error .badRequest, b)
  else if ¬ b.contains identity then
    let p := b.create [entity]
    (.ok (some entity), p.2)
  else
    match b.update identity entity with
    | .error _ => (.error .badGateway, b)
    | .ok b' => (.ok none, b')

/-- The identity-mismatch pre-check of `patch_entity`: a present `uri` field
differing from the target, or a present `namespace` whose composed
`{namespace (rstripped)}/{version}/{name}` (absent fields printing as
`"None"`) differs from the target. -/
def patchMismatch (identity : String) (d : Doc) : Bool :=
  (match d.uri? with
    | some u => u != identity
    | none => false)
  || (match d.nspace? with
    | some ns =>
      (rstripSlash ns ++ "/" ++ optStr d.version? ++ "/" ++ optStr d.name?) != identity
    | none => false)

/-- `patch_entity` (PATCH `/entities/{identity}`): 400 on identity mismatch;
404 when the target identity is not in the store; otherwise update (502 on a
write failure). -/
def patchEntity (b : Backend) (identity : String) (entity : Doc) :
    Except RouterErr Unit × Backend :=
  if patchMismatch identity entity then (.error .badRequest, b)
  else if ¬ b.contains identity then (.error .notFound, b)
  else
    match b.update identity entity with
    | .error _ => (.error .badGateway, b)
    | .ok b' => (.ok (), b')

/-- `delete_entity` (DELETE `/entities/{identity}`): 404 when the identity is
not in the store; otherwise delete the one-element batch (502 on a write
failure) and return the identity. -/
def deleteEntity (b : Backend) (identity : String) :
    Except RouterErr String × Backend :=
  if ¬ b.contains identity then (.error .notFound, b)
  else
    match b.delete [identity] with
    | .error _ => (.error .badGateway, b)
    | .ok b' => (.ok identity, b')

/-! ## Sample data for concrete evaluations -/

/-- A map-shaped (SOFT7) sample document. -/
def sampleDoc : Doc :=
  ⟨none, some "http://onto-ns.com/meta", some "0.1", some "Foo",
    .dictShape ["mass"], .dictShape ["n"]⟩

/-- A list-shaped (SOFT5) sample document. -/
def sampleDoc2 : Doc :=
  ⟨none, some "http://onto-ns.com/meta", some "0.1", some "Bar",
    .listShape [some "radius"], .listShape []⟩

/-- A store holding exactly `sampleDoc`. -/
def sampleBackend : Backend := ⟨[sampleDoc], [getUri sampleDoc]⟩

/-! ## Helper lemmas -/

/-- A batch patch with some target identity missing from the store is
rejected by the pre-flight existence check, before any `Store.update`. -/
theorem patchEntities_missing (b : Backend) (es : List Doc)
    (h : ∃ e ∈ es, ¬ b.contains (getUri e)) :
    patchEntities b es = (.error .badGateway, b) := by
  obtain ⟨e, he, hc⟩ := h
  cases es with
  | nil => cases he
  | cons a as =>
    have hmem : e ∈ (a :: as).filter (fun e => ¬ b.contains (getUri e)) :=
      List.mem_filter.mpr ⟨he, by simpa using hc⟩
    have hne : ¬ ((a :: as).filter (fun e => ¬ b.contains (getUri e))).isEmpty := by
      intro hempty
      rw [List.isEmpty_iff] at hempty
      rw [hempty] at hmem
      cases hmem
    simp only [patchEntities, Bool.not_eq_true'] at *
    rw [if_pos (by simpa using hne)]

/-- `splitLast` finds nothing when the separator does not occur. -/
theorem splitLast_of_not_mem (sep : Char) :
    ∀ l : List Char, sep ∉ l → splitLast sep l = none := by
  intro l
  induction l with
  | nil => intro _; rfl
  | cons c cs ih =>
    intro h
    unfold splitLast
    rw [ih (fun hm => h (List.mem_cons_of_mem _ hm))]
    exact if_neg (fun hc => h (by rw [hc]; exact List.mem_cons_self _ _))

/-- `splitLast` splits at the last occurrence of the separator. -/
theorem splitLast_append (sep : Char) (b : List Char) (hb : sep ∉ b) :
    ∀ a : List Char, splitLast sep (a ++ sep :: b) = some (a, b) := by
  intro a
  induction a with
  | nil =>
    rw [List.nil_append]
    unfold splitLast
    rw [splitLast_of_not_mem sep b hb]
    exact if_pos rfl
  | cons c cs ih =>
    rw [List.cons_append]
    unfold splitLast
    rw [ih]

/-- The version-group tail contains no slash. -/
theorem versionTailOk_no_slash :
    ∀ (k : Nat) (l : List Char), versionTailOk k l = true → '/' ∉ l := by
  intro k
  induction k with
  | zero =>
    intro l h
    cases l with
    | nil => simp
    | cons c cs => simp [versionTailOk] at h
  | succ k ih =>
    intro l h
    cases l with
    | nil => simp
    | cons c cs =>
      unfold versionTailOk at h
      simp only [Bool.and_eq_true, beq_iff_eq] at h
      intro hmem
      rcases List.mem_cons.mp hmem with rfl | hmem
      · exact absurd h.1.1 (by decide)
      · rw [← List.takeWhile_append_dropWhile (p := Char.isDigit) (l := cs)] at hmem
        rcases List.mem_append.mp hmem with hm | hm
        · exact absurd (List.mem_takeWhile_imp hm) (by decide)
        · exact ih _ h.2 hm

/-- The version group contains no slash. -/
theorem versionOk_no_slash (v : List Char) (h : versionOk v = true) :
    '/' ∉ v := by
  cases v with
  | nil => simp
  | cons c cs =>
    unfold versionOk at h
    simp only [Bool.and_eq_true] at h
    intro hmem
    rcases List.mem_cons.mp hmem with rfl | hmem
    · exact absurd h.1 (by decide)
    · exact versionTailOk_no_slash 2 cs h.2 hmem

/-- The name group contains no slash. -/
theorem nameOk_no_slash (n : List Char) (h : nameOk n = true) : '/' ∉ n := by
  unfold nameOk at h
  simp only [Bool.and_eq_true, List.all_eq_true] at h
  intro hmem
  have := h.2 '/' hmem
  simp at this

/-- `asString` turns list concatenation into string concatenation. -/
theorem asString_append (a b : List Char) :
    (a ++ b).asString = a.asString ++ b.asString := rfl

/-- On a recognized shape, `matchNames` returns the total criterion. -/
theorem matchNames_of_valid (shape : FieldShape) (req : List String)
    (h : shape ≠ .invalidShape) :
    shape.matchNames req = .ok (critShape shape req) := by
  cases shape with
  | dictShape keys => rfl
  | listShape names => rfl
  | invalidShape => exact absurd rfl h

/-- An empty request list matches no shape. -/
theorem critShape_nil (s : FieldShape) : critShape s [] = false := by
  cases s <;> rfl

/-- A filter pass over documents of recognized shapes is a plain filter. -/
theorem collectMatches_eq_filter (fieldOf : Doc → FieldShape) (req : List String) :
    ∀ l : List Doc, (∀ d ∈ l, fieldOf d ≠ .invalidShape) →
      collectMatches fieldOf req l
        = .ok (l.filter (fun d => critShape (fieldOf d) req)) := by
  intro l
  induction l with
  | nil => intro _; rfl
  | cons d ds ih =>
    intro h
    unfold collectMatches
    rw [matchNames_of_valid _ _ (h d (List.mem_cons_self d ds)),
      ih (fun d' hd' => h d' (List.mem_cons_of_mem _ hd')), List.filter_cons]

/-- Completeness of the identity lookup: a stored document is found under
its own uri when the uri list is the data's uris without duplicates. -/
theorem lookupByUri_map_self (d : Doc) :
    ∀ ds : List Doc, (ds.map getUri).Nodup → d ∈ ds →
      lookupByUri (ds.map getUri) ds (getUri d) = some d := by
  intro ds
  induction ds with
  | nil => intro _ hd; cases hd
  | cons a as ih =>
    intro hnd hd
    rw [List.map_cons] at hnd ⊢
    rw [List.nodup_cons] at hnd
    unfold lookupByUri
    by_cases he : getUri a = getUri d
    · rw [if_pos he]
      rcases List.mem_cons.mp hd with rfl | hmem
      · rfl
      · exact absurd (he ▸ List.mem_map_of_mem getUri hmem) hnd.1
    · rw [if_neg he]
      rcases List.mem_cons.mp hd with rfl | hmem
      · exact absurd rfl he
      · exact ih hnd.2 hmem

/-- Soundness of the identity lookup: only stored documents are found. -/
theorem lookupByUri_sound (id : String) (d : Doc) :
    ∀ (us : List String) (ds : List Doc),
      lookupByUri us ds id = some d → d ∈ ds := by
  intro us
  induction us with
  | nil => intro ds h; cases ds <;> cases h
  | cons u us ih =>
    intro ds h
    cases ds with
    | nil => cases h
    | cons a as =>
      unfold lookupByUri at h
      by_cases he : u = id
      · rw [if_pos he] at h
        injection h with h'
        exact h' ▸ List.mem_cons_self a as
      · rw [if_neg he] at h
        exact List.mem_cons_of_mem _ (ih as h)

/-- A document found under `id` in the synced uri list has uri `id`. -/
theorem lookupByUri_map_uri (id : String) (d : Doc) :
    ∀ ds : List Doc, lookupByUri (ds.map getUri) ds id = some d →
      getUri d = id := by
  intro ds
  induction ds with
  | nil => intro h; cases h
  | cons a as ih =>
    intro h
    rw [List.map_cons] at h
    unfold lookupByUri at h
    by_cases he : getUri a = id
    · rw [if_pos he] at h
      injection h with h'
      exact h' ▸ he
    · rw [if_neg he] at h
      exact ih h

/-- Under recognized shapes, `search` (with no raw query) succeeds and is
the concatenation of the property pass, the dimension pass, and the
identity lookups. -/
theorem search_ok (b : Backend) (props dims ids : List String)
    (hval : ∀ d ∈ b.data,
      d.properties ≠ .invalidShape ∧ d.dimensions ≠ .invalidShape) :
    b.search none (some props) (some dims) (some ids)
      = .ok (b.data.filter (fun d => critShape d.properties props)
          ++ b.data.filter (fun d => critShape d.dimensions dims)
          ++ ids.filterMap (lookupByUri b.uris b.data)) := by
  have hP : (if truthy (some props) then
        collectMatches Doc.properties ((some props).getD []) b.data
      else .ok [])
      = Except.ok (b.data.filter (fun d => critShape d.properties props)) := by
    by_cases hp : truthy (some props)
    · rw [if_pos hp]
      exact collectMatches_eq_filter _ _ _ (fun d hd => (hval d hd).1)
    · rw [if_neg hp]
      have hnil : props = [] := by
        unfold truthy at hp
        simpa using hp
      subst hnil
      rw [List.filter_eq_nil_iff.mpr (fun d _ => by simp [critShape_nil])]
  have hD : (if truthy (some dims) then
        collectMatches Doc.dimensions ((some dims).getD []) b.data
      else .ok [])
      = Except.ok (b.data.filter (fun d => critShape d.dimensions dims)) := by
    by_cases hp : truthy (some dims)
    · rw [if_pos hp]
      exact collectMatches_eq_filter _ _ _ (fun d hd => (hval d hd).2)
    · rw [if_neg hp]
      have hnil : dims = [] := by
        unfold truthy at hp
        simpa using hp
      subst hnil
      rw [List.filter_eq_nil_iff.mpr (fun d _ => by simp [critShape_nil])]
  have hI : (if truthy (some ids) then
        ((some ids).getD []).filterMap (lookupByUri b.uris b.data)
      else [])
      = ids.filterMap (lookupByUri b.uris b.data) := by
    by_cases hp : truthy (some ids)
    · rw [if_pos hp]
      rfl
    · rw [if_neg hp]
      have hnil : ids = [] := by
        unfold truthy at hp
        simpa using hp
      subst hnil
      rfl
  unfold Backend.search
  rw [if_neg (by simp), hP, hD, hI]

/-- Membership in the insertion-ordered set built by `addUnique`. -/
theorem mem_foldl_addUnique (l : List String) :
    ∀ (acc : List String) (x : String),
      x ∈ l.foldl addUnique acc ↔ x ∈ acc ∨ x ∈ l := by
  induction l with
  | nil => simp
  | cons a as ih =>
    intro acc x
    rw [List.foldl_cons, ih]
    unfold addUnique
    by_cases ha : a ∈ acc
    · rw [if_pos ha]
      constructor
      · rintro (h | h)
        · exact Or.inl h
        · exact Or.inr (List.mem_cons_of_mem _ h)
      · rintro (h | h)
        · exact Or.inl h
        · rcases List.mem_cons.mp h with rfl | h
          · exact Or.inl ha
          · exact Or.inr h
    · rw [if_neg ha]
      simp only [List.mem_append, List.mem_cons, List.mem_singleton]
      tauto

/-- The set built by `addUnique` is duplicate-free. -/
theorem nodup_foldl_addUnique (l : List String) :
    ∀ acc : List String, acc.Nodup → (l.foldl addUnique acc).Nodup := by
  induction l with
  | nil => intro acc h; simpa using h
  | cons a as ih =>
    intro acc h
    rw [List.foldl_cons]
    apply ih
    unfold addUnique
    by_cases ha : a ∈ acc
    · rwa [if_pos ha]
    · rw [if_neg ha]
      simp [List.nodup_append, h, ha]

/-! ## Claim theorems -/

/-- C1: the claim says a replace (PUT) batch whose every identity already
exists updates each entity and reports "no content created".  The code
instead reads the local `created_entities` unbound (it is only assigned when
some entity is new) and raises `UnboundLocalError` before performing any
update: the store is returned unchanged and the no-content branch is dead
code.  This theorem evaluates the code at the failing inputs. -/
theorem update_entities_all_existing_unbound_local (b : Backend) (es : List Doc)
    (hne : es ≠ []) (hall : ∀ e ∈ es, b.contains (getUri e)) :
    updateEntities b es = (.error .unboundLocal, b) := by
  cases es with
  | nil => exact absurd rfl hne
  | cons a as =>
    have hf : List.filter (fun e => !decide (b.contains (getUri e))) (a :: as) = [] := by
      rw [List.filter_eq_nil_iff]
      intro e he
      simpa using hall e he
    simp [updateEntities, hf]

/-- Witness for C1: a one-element batch whose entity is already stored. -/
theorem update_entities_all_existing_unbound_local_witness :
    updateEntities sampleBackend [sampleDoc] = (.error .unboundLocal, sampleBackend) :=
  update_entities_all_existing_unbound_local sampleBackend [sampleDoc]
    (by simp) (by intro e he; simp at he; subst he; simp [Backend.contains, sampleBackend])

/-- C2 (counterexample): patching a batch whose single target identity is
absent surfaces the aggregated write failure (502 Bad Gateway), not the
NotFound lookup failure the claim states. -/
theorem patch_batch_missing_is_bad_gateway_not_notFound :
    patchEntities ⟨[], []⟩ [sampleDoc] = (.error .badGateway, ⟨[], []⟩)
      ∧ RouterErr.badGateway ≠ RouterErr.notFound :=
  ⟨rfl, by decide⟩

/-- C2 (amended): a patch targeting an identity not in the store surfaces
NotFound for the single-entity variant (once the identity-mismatch pre-check
passes), while the batch variant surfaces the aggregated write failure
(502 Bad Gateway) instead. -/
theorem patch_missing_identity_errors (b : Backend) (id : String) (e : Doc)
    (es : List Doc) (hm : patchMismatch id e = false) (habs : ¬ b.contains id)
    (hbatch : ∃ e' ∈ es, ¬ b.contains (getUri e')) :
    patchEntity b id e = (.error .notFound, b)
      ∧ patchEntities b es = (.error .badGateway, b) := by
  constructor
  · simp [patchEntity, hm, habs]
  · exact patchEntities_missing b es hbatch

/-- Witness for C2: an empty store, a well-formed document. -/
theorem patch_missing_identity_errors_witness :
    patchEntity ⟨[], []⟩ (getUri sampleDoc) sampleDoc = (.error .notFound, ⟨[], []⟩)
      ∧ patchEntities ⟨[], []⟩ [sampleDoc] = (.error .badGateway, ⟨[], []⟩) :=
  patch_missing_identity_errors ⟨[], []⟩ (getUri sampleDoc) sampleDoc [sampleDoc]
    (by decide) (by simp [Backend.contains]) ⟨sampleDoc, by simp, by simp [Backend.contains]⟩

/-- C3 (counterexample): the single-entity delete of an identity absent from
the store does not succeed; it raises NotFound. -/
theorem delete_entity_absent_raises :
    (deleteEntity ⟨[], []⟩ "http://onto-ns.com/meta/0.1/Foo").1 = .error .notFound :=
  rfl

/-- C3 (amended): at the store level, deleting a non-existent identity is a
silent no-op (the state is unchanged and no error is raised); but the
single-entity delete endpoint checks existence first and fails with NotFound
for an absent identity, leaving the store untouched. -/
theorem delete_absent_identity_behaviour (b : Backend) (id : String)
    (hre : matchesUri id = true) (habs : id ∉ b.uris) :
    b.delete [id] = .ok b
      ∧ deleteEntity b id = (.error .notFound, b) := by
  constructor
  · simp [Backend.delete, hre, Backend.removeId, habs]
  · simp [deleteEntity, Backend.contains, habs]

/-- Witness for C3: an empty store and a grammar-valid identity. -/
theorem delete_absent_identity_behaviour_witness :
    Backend.delete ⟨[], []⟩ ["http://onto-ns.com/meta/0.1/Foo"] = .ok ⟨[], []⟩
      ∧ deleteEntity ⟨[], []⟩ "http://onto-ns.com/meta/0.1/Foo"
        = (.error .notFound, ⟨[], []⟩) :=
  delete_absent_identity_behaviour ⟨[], []⟩ "http://onto-ns.com/meta/0.1/Foo"
    (by decide) (by simp)

/-- C5: a patch batch in which some target identity is missing is rejected
with the batch failure before any `Store.update` call: the returned store
state is exactly the input state, so every other document is unchanged. -/
theorem patch_batch_preflight_no_partial_application (b : Backend)
    (es : List Doc) (h : ∃ e ∈ es, ¬ b.contains (getUri e)) :
    patchEntities b es = (.error .badGateway, b) :=
  patchEntities_missing b es h

/-- Witness for C5: a two-element batch over a store holding only the first
entity; the store comes back unchanged. -/
theorem patch_batch_preflight_no_partial_application_witness :
    patchEntities sampleBackend [sampleDoc, sampleDoc2]
      = (.error .badGateway, sampleBackend) :=
  patch_batch_preflight_no_partial_application sampleBackend [sampleDoc, sampleDoc2]
    ⟨sampleDoc2, by simp, by simp [Backend.contains, sampleBackend]; decide⟩

/-- C7: the single-entity replace raises the 400 identity-mismatch client
error, with the store unchanged, exactly when the out-of-band identity
differs from the document-derived identity; when they agree that error is
never raised. -/
theorem update_entity_identity_mismatch (b : Backend) (id : String) (e : Doc) :
    (id ≠ getUri e → updateEntity b id e = (.error .badRequest, b))
      ∧ (id = getUri e → (updateEntity b id e).1 ≠ .error .badRequest) := by
  constructor
  · intro h
    simp [updateEntity, h]
  · intro h
    unfold updateEntity
    rw [if_neg (by simpa using h)]
    by_cases hc : b.contains id
    · rw [if_neg (by simpa using hc)]
      cases hu : b.update id e <;> simp
    · rw [if_pos (by simpa using hc)]
      simp

/-- Witness for C7: a mismatching target raises 400; the matching target on
an empty store does not. -/
theorem update_entity_identity_mismatch_witness :
    updateEntity ⟨[], []⟩ "http://onto-ns.com/meta/0.1/Other" sampleDoc
        = (.error .badRequest, ⟨[], []⟩)
      ∧ (updateEntity ⟨[], []⟩ "http://onto-ns.com/meta/0.1/Foo" sampleDoc).1
        ≠ .error .badRequest :=
  ⟨(update_entity_identity_mismatch ⟨[], []⟩ "http://onto-ns.com/meta/0.1/Other"
      sampleDoc).1 (by decide),
    (update_entity_identity_mismatch ⟨[], []⟩ "http://onto-ns.com/meta/0.1/Foo"
      sampleDoc).2 (by decide)⟩

/-- C4: for a non-empty create batch, the handler fails with the single
aggregated write failure exactly when the value returned by `Store.create`
does not mirror the input arity (it is absent, or a sequence when exactly one
entity was requested, or not a sequence when more than one was requested);
otherwise it returns the store's value, mirroring the input arity. -/
theorem create_entities_arity_mirror (es : List Doc) (r : CreatedResult)
    (hne : es ≠ []) :
    (createEntities (fun _ => .ok r) es = .error .badGateway ↔
      r = .nothing ∨ (es.length = 1 ∧ r.isList = true)
        ∨ (1 < es.length ∧ r.isList = false))
    ∧ (¬ (r = .nothing ∨ (es.length = 1 ∧ r.isList = true)
          ∨ (1 < es.length ∧ r.isList = false)) →
        createEntities (fun _ => .ok r) es = .ok (some r)) := by
  cases es with
  | nil => exact absurd rfl hne
  | cons a as =>
    have hred : createEntities (fun _ => .ok r) (a :: as)
        = if (decide (r = CreatedResult.nothing)
              || ((a :: as).length == 1 && r.isList)
              || (decide (1 < (a :: as).length) && !r.isList)) = true
          then .error .badGateway else .ok (some r) := rfl
    have hbp : ((decide (r = CreatedResult.nothing)
          || ((a :: as).length == 1 && r.isList)
          || (decide (1 < (a :: as).length) && !r.isList)) = true)
        ↔ (r = .nothing ∨ ((a :: as).length = 1 ∧ r.isList = true)
            ∨ (1 < (a :: as).length ∧ r.isList = false)) := by
      simp only [Bool.or_eq_true, Bool.and_eq_true, decide_eq_true_eq,
        beq_iff_eq, Bool.not_eq_true', or_assoc]
    rw [hred]
    by_cases hc : r = CreatedResult.nothing
        ∨ ((a :: as).length = 1 ∧ r.isList = true)
        ∨ (1 < (a :: as).length ∧ r.isList = false)
    · rw [if_pos (hbp.mpr hc)]
      exact ⟨⟨fun _ => hc, fun _ => rfl⟩, fun hnc => absurd hc hnc⟩
    · rw [if_neg (fun hb => hc (hbp.mp hb))]
      constructor
      · constructor
        · intro h
          cases h
        · intro h
          exact absurd h hc
      · intro _
        rfl

/-- Witness for C4: an absent return for a one-element batch is the
aggregated failure; a single returned document for a one-element batch is
returned as-is. -/
theorem create_entities_arity_mirror_witness :
    createEntities (fun _ => .ok .nothing) [sampleDoc] = .error .badGateway
      ∧ createEntities (fun _ => .ok (.one sampleDoc)) [sampleDoc]
        = .ok (some (.one sampleDoc)) :=
  ⟨(create_entities_arity_mirror [sampleDoc] .nothing (by simp)).1.mpr
      (Or.inl rfl),
    (create_entities_arity_mirror [sampleDoc] (.one sampleDoc) (by simp)).2
      (by simp [CreatedResult.isList])⟩

/-- C6: a search with several filter criteria is the inclusive,
non-deduplicating union: any stored document matching the property-name
criterion OR the dimension-name criterion OR the identity criterion is in
the result (no intersection is required), everything in the result matches
at least one criterion, and a document matching more than one filter
category can appear more than once. -/
theorem search_inclusive_union :
    (∀ (b : Backend) (props dims ids : List String) (res : List Doc),
        (∀ d ∈ b.data,
          d.properties ≠ .invalidShape ∧ d.dimensions ≠ .invalidShape) →
        b.uris = b.data.map getUri →
        b.uris.Nodup →
        b.search none (some props) (some dims) (some ids) = .ok res →
        (∀ d ∈ b.data,
            (critShape d.properties props = true
              ∨ critShape d.dimensions dims = true
              ∨ getUri d ∈ ids) → d ∈ res)
          ∧ (∀ d ∈ res, d ∈ b.data
              ∧ (critShape d.properties props = true
                ∨ critShape d.dimensions dims = true
                ∨ getUri d ∈ ids)))
      ∧ ∃ res, sampleBackend.search none (some ["mass"]) (some ["n"]) (some [])
          = .ok res ∧ 2 ≤ res.count sampleDoc := by
  constructor
  · intro b props dims ids res hval hsync hnd hres
    rw [search_ok b props dims ids hval] at hres
    injection hres with hres
    subst hres
    constructor
    · intro d hd hcrit
      simp only [List.mem_append]
      rcases hcrit with hc | hc | hc
      · exact Or.inl (Or.inl (List.mem_filter.mpr ⟨hd, hc⟩))
      · exact Or.inl (Or.inr (List.mem_filter.mpr ⟨hd, hc⟩))
      · refine Or.inr (List.mem_filterMap.mpr ⟨getUri d, hc, ?_⟩)
        rw [hsync]
        exact lookupByUri_map_self d b.data (hsync ▸ hnd) hd
    · intro d hd
      simp only [List.mem_append] at hd
      rcases hd with (hf | hf) | hf
      · have := List.mem_filter.mp hf
        exact ⟨this.1, Or.inl this.2⟩
      · have := List.mem_filter.mp hf
        exact ⟨this.1, Or.inr (Or.inl this.2)⟩
      · obtain ⟨id, hid, hlk⟩ := List.mem_filterMap.mp hf
        refine ⟨lookupByUri_sound id d b.uris b.data hlk, ?_⟩
        right; right
        rw [hsync] at hlk
        exact (lookupByUri_map_uri id d b.data hlk) ▸ hid
  · exact ⟨[sampleDoc, sampleDoc], rfl, by decide⟩

/-- Witness for C6: over a one-document store, a property filter that hits
and a dimension filter plus identity filter that miss still return the
document (union, not intersection). -/
theorem search_inclusive_union_witness :
    (∀ d ∈ sampleBackend.data,
        (critShape d.properties ["mass"] = true
          ∨ critShape d.dimensions ["missing"] = true
          ∨ getUri d ∈ ["http://absent/0.1/X"]) → d ∈ [sampleDoc])
      ∧ (∀ d ∈ [sampleDoc], d ∈ sampleBackend.data
          ∧ (critShape d.properties ["mass"] = true
            ∨ critShape d.dimensions ["missing"] = true
            ∨ getUri d ∈ ["http://absent/0.1/X"])) :=
  search_inclusive_union.1 sampleBackend ["mass"] ["missing"]
    ["http://absent/0.1/X"] [sampleDoc] (by decide) (by decide) (by decide) rfl

/-- C8: a successful bulk delete of a non-empty identity collection returns
exactly the set of supplied identities — duplicates collapsed — sorted
lexicographically as strings; an empty identity set is rejected with the 400
client error (distinct from the 502 write failure) with the store untouched. -/
theorem delete_entities_canonical (b : Backend) (body : BodyIds)
    (query : Option (List String)) :
    (collectIds body query = [] →
        deleteEntities b body query = (.error .badRequest, b)
          ∧ RouterErr.badRequest ≠ RouterErr.badGateway)
      ∧ (collectIds body query ≠ [] →
          (∀ id ∈ collectIds body query, matchesUri id = true) →
          ∃ out b', deleteEntities b body query = (.ok out, b')
            ∧ out.Sorted (· ≤ ·)
            ∧ out.Nodup
            ∧ (∀ x, x ∈ out ↔ x ∈ rawIds body query)) := by
  constructor
  · intro h
    refine ⟨?_, by decide⟩
    simp [deleteEntities, h]
  · intro hne hall
    have hnodup : (collectIds body query).Nodup :=
      nodup_foldl_addUnique _ _ List.nodup_nil
    have hmem : ∀ x, x ∈ collectIds body query ↔ x ∈ rawIds body query := by
      intro x
      rw [collectIds, mem_foldl_addUnique]
      simp
    have hdel : Backend.delete b (collectIds body query)
        = .ok ((collectIds body query).foldl Backend.removeId b) := by
      unfold Backend.delete
      rw [if_neg]
      simp only [List.any_eq_true, not_exists, not_and]
      intro id hid
      simp [hall id hid]
    refine ⟨sortStr (collectIds body query),
      (collectIds body query).foldl Backend.removeId b, ?_, ?_, ?_, ?_⟩
    · unfold deleteEntities
      rw [if_neg (by simpa using hne), hdel]
    · exact List.sorted_insertionSort (· ≤ ·) _
    · exact ((List.perm_insertionSort (· ≤ ·) _).nodup_iff).mpr hnodup
    · intro x
      rw [sortStr, (List.perm_insertionSort (· ≤ ·) _).mem_iff, hmem]

/-- Witness for C8: the empty input is the 400 rejection; a three-element
body with a duplicate comes back deduplicated and sorted. -/
theorem delete_entities_canonical_witness :
    (deleteEntities ⟨[], []⟩ .noBody none = (.error .badRequest, ⟨[], []⟩)
        ∧ RouterErr.badRequest ≠ RouterErr.badGateway)
      ∧ ∃ out b',
          deleteEntities ⟨[], []⟩
              (.listOf ["http://x.org/1/B", "http://x.org/1/A", "http://x.org/1/B"])
              none
            = (.ok out, b')
          ∧ out.Sorted (· ≤ ·)
          ∧ out.Nodup
          ∧ (∀ x, x ∈ out ↔
              x ∈ rawIds
                (.listOf ["http://x.org/1/B", "http://x.org/1/A", "http://x.org/1/B"])
                none) :=
  ⟨(delete_entities_canonical ⟨[], []⟩ .noBody none).1 rfl,
    (delete_entities_canonical ⟨[], []⟩
        (.listOf ["http://x.org/1/B", "http://x.org/1/A", "http://x.org/1/B"])
        none).2 (by decide) (by decide)⟩

/-- C9: every string accepted by the identity grammar — a decomposition
`{namespace}/{version}/{name}` whose namespace matches `https?://.+`, whose
version is 1–3 dot-separated numeric groups, and whose name excludes `/`,
`#`, `?` — parses, and recomposing the parsed components as
`{namespace}/{version}/{name}` yields the original string. -/
theorem uri_grammar_roundtrip (s : String) (ns v n : List Char)
    (hdecomp : s.toList = ns ++ '/' :: (v ++ '/' :: n))
    (hns : nsOk ns = true) (hv : versionOk v = true) (hn : nameOk n = true) :
    ∃ i : Identity, parseUri s = some i
      ∧ i.nspace ++ "/" ++ i.version ++ "/" ++ i.name = s := by
  have h1 : splitLast '/' s.toList = some (ns ++ '/' :: v, n) := by
    rw [hdecomp, show ns ++ '/' :: (v ++ '/' :: n) = (ns ++ '/' :: v) ++ '/' :: n by
      simp [List.append_assoc]]
    exact splitLast_append '/' n (nameOk_no_slash n hn) _
  have h2 : splitLast '/' (ns ++ '/' :: v) = some (ns, v) :=
    splitLast_append '/' v (versionOk_no_slash v hv) ns
  refine ⟨⟨ns.asString, v.asString, n.asString⟩, ?_, ?_⟩
  · unfold parseUri
    simp [show splitLast '/' s.data = some (ns ++ '/' :: v, n) from h1,
      h2, hns, hv, hn]
  · show ns.asString ++ "/" ++ v.asString ++ "/" ++ n.asString = s
    have hs : "/" = List.asString ['/'] := rfl
    rw [hs, ← asString_append, ← asString_append, ← asString_append,
      ← asString_append, List.asString_eq, hdecomp]
    simp [List.append_assoc]

/-- Witness for C9: the grammar-valid string
`http://onto-ns.com/meta/0.1/Foo` parses and recomposes to itself. -/
theorem uri_grammar_roundtrip_witness :
    ∃ i : Identity, parseUri "http://onto-ns.com/meta/0.1/Foo" = some i
      ∧ i.nspace ++ "/" ++ i.version ++ "/" ++ i.name
        = "http://onto-ns.com/meta/0.1/Foo" :=
  uri_grammar_roundtrip "http://onto-ns.com/meta/0.1/Foo"
    "http://onto-ns.com/meta".toList "0.1".toList "Foo".toList
    (by decide) (by decide) (by decide) (by decide)

/-- C10: the multi-entity retrieval never returns an empty list: whenever the
backend search yields no documents it raises NotFound instead, and in
particular an unfiltered retrieval over an empty store raises NotFound. -/
theorem get_entities_never_empty :
    (∀ (b : Backend) (ids props dims : Option (List String)),
        b.search none props dims ids = .ok [] →
        getEntities b ids props dims = .error .notFound)
      ∧ (∀ (b : Backend) (ids props dims : Option (List String)) (res : List Doc),
          getEntities b ids props dims = .ok res → res ≠ [])
      ∧ getEntities ⟨[], []⟩ none none none = .error .notFound := by
  refine ⟨?_, ?_, rfl⟩
  · intro b ids props dims h
    simp [getEntities, h]
  · intro b ids props dims res h hnil
    subst hnil
    unfold getEntities at h
    split at h
    next => cases h
    next =>
      split at h
      next => cases h
      next he =>
        injection h with h'
        subst h'
        simp at he

/-- Witness for C10: a search that finds nothing (an identity filter over an
empty store) makes the retrieval raise NotFound. -/
theorem get_entities_never_empty_witness :
    getEntities ⟨[], []⟩ (some ["http://onto-ns.com/meta/0.1/Foo"]) none none
      = .error .notFound :=
  get_entities_never_empty.1 ⟨[], []⟩ (some ["http://onto-ns.com/meta/0.1/Foo"])
    none none rfl

end EntitiesService
